import Mathlib

/-!
# Weather sampler: poller and averaging endpoints

A shallow embedding of `src/main.go` (aggregate endpoint `/average`) and of
`src/backend/main.go` (parametrized endpoint `/average/{hour}`), together with the
poller (`timePolling`, `createRecord`, `logProblemToDS`) that both files share verbatim.

Conventions of the embedding.

* Go `int` values are `Int`; no arithmetic of the program comes near the 64-bit range.
* `float32` / `float64` values are IEEE 754 binary values `Flt`: NaN, the two infinities,
  or a signed finite value `m * 2 ^ e`.  Arithmetic rounds to nearest, ties to even, into
  the binary64 format.
* A Go `error` is `Option String`: `none` is `nil`, `some msg` an error whose `Error()`
  text is `msg`.
* The store is the list of rows of the `measurements` table, in insertion order.
* Everything the outside world decides (clock readings, the weather provider, the
  webhook, storage failures the code checks for) is an explicit input.
-/

set_option autoImplicit false
set_option maxRecDepth 100000

namespace Weather

/-! ## IEEE 754 values -/

/-- Number of binary digits of `n`, by repeated halving; `fuel` bounds the halvings. -/
def bitLenAux : Nat → Nat → Nat
  | 0, _ => 0
  | fuel + 1, n => if n = 0 then 0 else bitLenAux fuel (n / 2) + 1

/-- Number of binary digits of `n` (`0` for `n = 0`). -/
def bitLen (n : Nat) : Nat := bitLenAux n n

/-- A floating point value: NaN, a signed infinity, or `(-1) ^ neg * m * 2 ^ e`. -/
inductive Flt where
  | nan
  | inf (neg : Bool)
  | fin (neg : Bool) (m : Nat) (e : Int)
  deriving DecidableEq

/-- Go `float32`; every such value is also a `float64` value. -/
abbrev float32 := Flt

/-- Go `float64`. -/
abbrev float64 := Flt

namespace Flt

/-- The constant `0.0`. -/
def zero : Flt := fin false 0 0

/-- Result of rounding: a zero, an overflow to infinity, or the finite value. -/
def pack (neg : Bool) (q : Nat) (e : Int) : Flt :=
  if q = 0 then fin neg 0 0 else if e > 971 then inf neg else fin neg q e

/-- The quotient `m / 2 ^ k` rounded to the nearest integer, ties to the even one. -/
def roundQuot (m k : Nat) : Nat :=
  let q := m / 2 ^ k
  let r := m % 2 ^ k
  let half := 2 ^ (k - 1)
  if r > half ∨ (r = half ∧ q % 2 = 1) then q + 1 else q

/-- Round the exact value `(-1) ^ neg * m * 2 ^ e` to binary64, nearest with ties to even.
Normal results carry a 53-bit significand, subnormal ones the exponent `-1074`. -/
def round64 (neg : Bool) (m : Nat) (e : Int) : Flt :=
  if m = 0 then fin neg 0 0 else
  let e1 : Int := max (e + (bitLen m : Int) - 53) (-1074)
  if e1 ≤ e then
    pack neg (m * 2 ^ (e - e1).toNat) e1
  else if roundQuot m (e1 - e).toNat = 2 ^ 53 then pack neg (2 ^ 52) (e1 + 1)
  else pack neg (roundQuot m (e1 - e).toNat) e1

/-- Conversion `float64(n)` of a Go `int`. -/
def ofInt (n : Int) : Flt := round64 (decide (n < 0)) n.natAbs 0

/-- Conversion `float64(x)` of a `float32`; exact on every `float32` value. -/
def toFloat64 : float32 → float64
  | nan => nan
  | inf s => inf s
  | fin s m e => round64 s m e

/-- IEEE addition `x + y` in binary64. -/
def add : Flt → Flt → Flt
  | nan, _ => nan
  | _, nan => nan
  | inf s, inf t => if s = t then inf s else nan
  | inf s, fin _ _ _ => inf s
  | fin _ _ _, inf t => inf t
  | fin s1 m1 e1, fin s2 m2 e2 =>
    let e := min e1 e2
    let a : Int := (if s1 then -1 else 1) * ((m1 * 2 ^ (e1 - e).toNat : Nat) : Int)
    let b : Int := (if s2 then -1 else 1) * ((m2 * 2 ^ (e2 - e).toNat : Nat) : Int)
    let z := a + b
    if z = 0 then fin (s1 && s2) 0 0 else round64 (decide (z < 0)) z.natAbs e

/-- IEEE division `x / y` in binary64 (division by zero yields an infinity or NaN). -/
def div : Flt → Flt → Flt
  | nan, _ => nan
  | _, nan => nan
  | inf _, inf _ => nan
  | inf s, fin t _ _ => inf (xor s t)
  | fin s _ _, inf t => fin (xor s t) 0 0
  | fin s1 m1 e1, fin s2 m2 e2 =>
    if m2 = 0 then (if m1 = 0 then nan else inf (xor s1 s2))
    else
      let k := bitLen m2 + 64
      let q := (m1 * 2 ^ k) / m2
      let r := (m1 * 2 ^ k) % m2
      round64 (xor s1 s2) (2 * q + (if r = 0 then 0 else 1)) (e1 - e2 - (k : Int) - 1)

/-- Go `math.IsNaN`. -/
def IsNaN : Flt → Bool
  | nan => true
  | _ => false

/-- Go `math.IsInf(f, 0)`. -/
def IsInf : Flt → Bool
  | inf _ => true
  | _ => false

/-- A finite `float32` value: 24-bit significand, exponent range of binary32. -/
def isFinite32 : Flt → Bool
  | fin _ m e => decide (m < 2 ^ 24) && decide (-149 ≤ e) && decide (e ≤ 104)
  | _ => false

end Flt

/-! ## Data model -/

/-- Row of the `measurements` table. -/
structure Measurement where
  Id : Int
  Hour : Int
  Date : String
  Temperature : float32
  WindSpeed : float32
  deriving DecidableEq

/-- Go `fmt.Sprint` of an `int`: its decimal rendering. -/
def Sprint (n : Int) : String := toString n

/-- Rows returned by `db.Find(&m, "Hour = ?", hour)` on a healthy store. -/
def Find (db : List Measurement) (hour : Int) : List Measurement :=
  db.filter (fun r => decide (r.Hour = hour))

/-! ## Aggregate endpoint (`src/main.go`) -/

/-- Dynamic value stored in the `simplejson` map by the handler. -/
inductive Value where
  | str (s : String)
  | num (f : float64)
  deriving DecidableEq

/-- JSON value as it appears in the serialized payload. -/
inductive Json where
  | null
  | str (s : String)
  | num (f : float64)
  deriving DecidableEq

/-- The `map[string]interface{}` held by a `simplejson.Json`. -/
abbrev JsonMap := List (String × Value)

/-- Go `json.Set(key, val)`: `data[key] = val`. -/
def JsonMap.Set (j : JsonMap) (key : String) (val : Value) : JsonMap :=
  (key, val) :: j.filter (fun p => p.1 != key)

/-- Serialization of one value by `encoding/json`; NaN and infinities are unsupported. -/
def marshalValue : Value → Option Json
  | Value.str s => some (Json.str s)
  | Value.num f => if f.IsNaN || f.IsInf then none else some (Json.num f)

/-- Go `json.MarshalJSON()`: the object with every entry serialized, or `none` on error.
The order in which the keys are emitted is not represented. -/
def MarshalJSON : JsonMap → Option (List (String × Json))
  | [] => some []
  | (k, v) :: rest =>
    match marshalValue v, MarshalJSON rest with
    | some j, some js => some ((k, j) :: js)
    | _, _ => none

/-- What the client receives: status code and, when a body was written, its JSON object. -/
structure Response where
  status : Nat
  payload : Option (List (String × Json))
  deriving DecidableEq

/-- Value found under `key` in the response object. -/
def Response.value (r : Response) (key : String) : Option Json :=
  r.payload.bind (fun p => p.lookup key)

/-- Keys of the response object. -/
def Response.keys (r : Response) : List String :=
  match r.payload with
  | none => []
  | some p => p.map Prod.fst

/-- The inner loops of `handleAverage`: `sum / float64(len(m[x]))`. -/
def average (rows : List Measurement) : float64 :=
  Flt.div (rows.foldl (fun sum y => Flt.add sum (Flt.toFloat64 y.Temperature)) Flt.zero)
    (Flt.ofInt rows.length)

/-- Body of the loop filling the `simplejson` object. -/
def setAverage (key : String) (i : float64) (json : JsonMap) : JsonMap :=
  if i.IsNaN then json.Set key (Value.str "null") else json.Set key (Value.num i)

/-- Handler `handleAverage` of `src/main.go`.  `none` is a run-time panic
(`HOUR_TO_RECORD[i]` out of range); both loops run over the indices `0, 1, 2`. -/
def handleAverage (HOUR_TO_RECORD : List Int) (db : List Measurement) : Option Response :=
  match (List.range 3).mapM (fun i => (HOUR_TO_RECORD.get? i).map (Find db)) with
  | none => none
  | some m =>
    match (m.map average).enum.foldlM
        (fun json xi => (HOUR_TO_RECORD.get? xi.1).map (fun h => setAverage (Sprint h) xi.2 json))
        ([] : JsonMap) with
    | none => none
    | some json =>
      match MarshalJSON json with
      | none => some ⟨500, none⟩
      | some payload => some ⟨200, some payload⟩

/-! ## Poller (`timePolling`, `createRecord`, `logProblemToDS`; identical in both files) -/

/-- A reading of `time.Now()`, reduced to the fields the program uses. -/
structure Time where
  year : Int
  month : Nat
  day : Nat
  hour : Int
  deriving DecidableEq

/-- Go `appendInt` of package `time`: sign, zero padding up to `width`, decimal digits. -/
def appendInt (x : Int) (width : Nat) : String :=
  (if x < 0 then "-" else "") ++
    String.mk (List.replicate (width - (toString x.natAbs).length) '0') ++ toString x.natAbs

/-- Go `now.Format(DATE_FORMAT)` with `DATE_FORMAT = time.DateOnly`, the layout `2006-01-02`. -/
def Time.Format (now : Time) : String :=
  appendInt now.year 4 ++ "-" ++ appendInt now.month 2 ++ "-" ++ appendInt now.day 2

/-- Linear search `checkItemInArray`. -/
def checkItemInArray (selecItem : Int) : List Int → Bool
  | [] => false
  | item :: array => if item = selecItem then true else checkItemInArray selecItem array

/-- Observable actions of the poller. -/
inductive Event where
  /-- The call `http.Get(weatherApiUrl)`. -/
  | httpGet
  /-- The call `http.Post(DISCORD_WEBHOOK, "application/json", body)`. -/
  | httpPost (body : String)
  /-- The call `time.Sleep(10 * time.Minute)`. -/
  | sleep
  deriving DecidableEq

/-- How a function left: by returning, or by a panic that terminates the process. -/
inductive Exit where
  | returned
  /-- Run-time panic: method call or field access through a nil value. -/
  | nilDereference
  /-- The call `log.Panic(err)`. -/
  | logPanic
  deriving DecidableEq

/-- Store, actions performed so far, and how the code left. -/
structure Run where
  db : List Measurement
  trace : List Event
  exit : Exit
  deriving DecidableEq

/-- What reading and decoding the response body yields. -/
inductive Body where
  /-- The call `io.ReadAll` fails. -/
  | readError (err : String)
  /-- The call `json.Unmarshal` fails. -/
  | decodeError (err : String)
  /-- The decoded `current_weather` object. -/
  | weather (Temperature WindSpeed : float32)
  deriving DecidableEq

/-- Outcome of `http.Get(weatherApiUrl)`. -/
inductive GetResult where
  /-- A non-nil error (transport failure); there is no response. -/
  | failed (err : String)
  /-- A nil error and a response with this status. -/
  | response (StatusCode : Int) (body : Body)
  deriving DecidableEq

/-- Everything the outside world decides during one call of `createRecord`. -/
structure World where
  /-- Outcome of the weather request. -/
  get : GetResult
  /-- The reading `time.Now()` taken by `createRecord` after the fetch. -/
  now : Time
  /-- Failure of the insert statement reported by the storage engine, if any. -/
  createErr : Option String
  /-- Status of the webhook response; `none` when `http.Post` yields no response. -/
  post : Option Int
  deriving DecidableEq

/-- The payload `fmt.Sprintf` builds in `logProblemToDS`. -/
def alertBody (msg : String) : String :=
  "\x7b\n\t\t\"embeds\": [\n\t\t  \x7b\n\t\t\t\"title\": \"Error while trying to save a record\"," ++
  "\n\t\t\t\"description\" : \"" ++ msg ++ "\",\n\t\t\t\"color\" : 15548997\n\t\t  \x7d\n\t\t]\n\t  \x7d"

/-- Function `logProblemToDS`: `err.Error()` panics on a nil `err` before anything is sent;
reading `resp.StatusCode` panics when the POST produced no response. -/
def logProblemToDS (err : Option String) (post : Option Int) (trace : List Event) :
    List Event × Exit :=
  match err with
  | none => (trace, Exit.nilDereference)
  | some msg =>
    match post with
    | none => (trace ++ [Event.httpPost (alertBody msg)], Exit.nilDereference)
    | some _ => (trace ++ [Event.httpPost (alertBody msg)], Exit.returned)

/-- The pair `logProblemToDS(err); log.Panic(err)` that ends every failure path. -/
def alertAndPanic (err : Option String) (w : World) (db : List Measurement)
    (trace : List Event) : Run :=
  match logProblemToDS err w.post trace with
  | (trace1, Exit.returned) => ⟨db, trace1, Exit.logPanic⟩
  | (trace1, exit) => ⟨db, trace1, exit⟩

/-- Go `db.Create(&row).Error`: the statement fails when the engine fails or when the
primary key `Id` is already taken; otherwise the row is appended.  (`Id` is never `0`
here, so the engine does not pick a key of its own.) -/
def Create (db : List Measurement) (row : Measurement) (fault : Option String) :
    Except String (List Measurement) :=
  match fault with
  | some err => Except.error err
  | none =>
    if db.any (fun r => decide (r.Id = row.Id)) then
      Except.error "UNIQUE constraint failed: measurements.id"
    else Except.ok (db ++ [row])

/-- Function `createRecord`.  The row count `len(m)` comes from `db.Find(&m)`, whose error
the code discards; it is taken on a healthy store. -/
def createRecord (w : World) (db : List Measurement) (trace : List Event) : Run :=
  let trace := trace ++ [Event.httpGet]
  match w.get with
  | GetResult.failed err => alertAndPanic (some err) w db trace
  | GetResult.response StatusCode body =>
    if StatusCode ≠ 200 then alertAndPanic none w db trace
    else
      match body with
      | Body.readError err => alertAndPanic (some err) w db trace
      | Body.decodeError err => alertAndPanic (some err) w db trace
      | Body.weather Temperature WindSpeed =>
        let now := w.now
        let m := db
        match Create db ⟨(m.length : Int) + 1, now.hour, now.Format, Temperature, WindSpeed⟩
            w.createErr with
        | Except.error err => alertAndPanic (some err) w db trace
        | Except.ok db1 => ⟨db1, trace, Exit.returned⟩

/-- Go `db.Last(&m, "Hour = ? AND Date = ?", hour, date).Error`: the engine failure if there
is one, `record not found` when no row matches, `nil` otherwise. -/
def Last (db : List Measurement) (hour : Int) (date : String) (fault : Option String) :
    Option String :=
  match fault with
  | some err => some err
  | none =>
    if db.any (fun r => decide (r.Hour = hour) && decide (r.Date = date)) then none
    else some "record not found"

/-- Inputs of one iteration of the loop of `timePolling`. -/
structure Tick where
  /-- The reading `time.Now()` at the top of the iteration. -/
  now : Time
  /-- Failure of the lookup statement reported by the storage engine, if any. -/
  lastErr : Option String
  /-- Inputs of `createRecord`, used when it is called. -/
  world : World
  deriving DecidableEq

/-- One iteration of the loop of `timePolling`. -/
def timePollingStep (HOUR_TO_RECORD : List Int) (t : Tick) (db : List Measurement) : Run :=
  let now := t.now
  let hour := now.hour
  if checkItemInArray hour HOUR_TO_RECORD then
    let err := Last db hour now.Format t.lastErr
    let r := if err.isSome then createRecord t.world db [] else ⟨db, [], Exit.returned⟩
    match r.exit with
    | Exit.returned => ⟨r.db, r.trace ++ [Event.sleep], Exit.returned⟩
    | _ => r
  else ⟨db, [], Exit.returned⟩

/-- The loop of `timePolling` over the iterations given; it stops at the first panic. -/
def timePolling (HOUR_TO_RECORD : List Int) : List Tick → Run → Run
  | [], r => r
  | t :: ts, r =>
    match r.exit with
    | Exit.returned =>
      let r1 := timePollingStep HOUR_TO_RECORD t r.db
      timePolling HOUR_TO_RECORD ts ⟨r1.db, r.trace ++ r1.trace, r1.exit⟩
    | _ => r

/-- Successive calls of `createRecord`, all of which return; `none` if one of them panics. -/
def createRecords : List World → List Measurement → Option (List Measurement)
  | [], db => some db
  | w :: ws, db =>
    match (createRecord w db []).exit with
    | Exit.returned => createRecords ws (createRecord w db []).db
    | _ => none

/-- At most one row per `(Hour, Date)` pair. -/
def uniquePairs (db : List Measurement) : Prop :=
  db.Pairwise (fun a b => ¬ (a.Hour = b.Hour ∧ a.Date = b.Date))

instance (db : List Measurement) : Decidable (uniquePairs db) := by
  unfold uniquePairs; infer_instance

/-! ## Parametrized endpoint (`src/backend/main.go`) -/

namespace Backend

/-- The two failures of `strconv`. -/
inductive NumError where
  | ErrSyntax
  | ErrRange
  deriving DecidableEq

/-- The digit loop of `strconv.ParseUint(s, 10, 32)`, with `n` the value read so far. -/
def parseDigits : List Char → Nat → Nat × Option NumError
  | [], n => (n, none)
  | c :: cs, n =>
    if c.isDigit then
      if n ≥ 2 ^ 64 / 10 + 1 then (2 ^ 32 - 1, some NumError.ErrRange)
      else if n * 10 + (c.toNat - 48) > 2 ^ 32 - 1 then (2 ^ 32 - 1, some NumError.ErrRange)
      else parseDigits cs (n * 10 + (c.toNat - 48))
    else (0, some NumError.ErrSyntax)

/-- Go `strconv.ParseUint(s, 10, 32)`. -/
def ParseUint (s : List Char) : Nat × Option NumError :=
  match s with
  | [] => (0, some NumError.ErrSyntax)
  | _ => parseDigits s 0

/-- Range check and sign of `strconv.ParseInt(s, 10, 32)` once the digits are read. -/
def signed (neg : Bool) (r : Nat × Option NumError) : Int × Option NumError :=
  match r with
  | (_, some NumError.ErrSyntax) => (0, some NumError.ErrSyntax)
  | (un, _) =>
    if !neg && decide (un ≥ 2 ^ 31) then (2 ^ 31 - 1, some NumError.ErrRange)
    else if neg && decide (un > 2 ^ 31) then (-(2 ^ 31), some NumError.ErrRange)
    else (if neg then -(un : Int) else (un : Int), none)

/-- Go `strconv.ParseInt(s, 10, 32)`: value and error. -/
def ParseInt (s : String) : Int × Option NumError :=
  match s.data with
  | [] => (0, some NumError.ErrSyntax)
  | '+' :: rest => signed false (ParseUint rest)
  | '-' :: rest => signed true (ParseUint rest)
  | cs => signed false (ParseUint cs)

/-- State of the `http.ResponseWriter`: status line sent or not, status, body so far. -/
structure ResponseWriter where
  wroteHeader : Bool
  status : Nat
  body : String
  deriving DecidableEq

/-- Go `w.WriteHeader(code)`; a second call has no effect. -/
def ResponseWriter.WriteHeader (w : ResponseWriter) (code : Nat) : ResponseWriter :=
  if w.wroteHeader then w else ⟨true, code, w.body⟩

/-- Go `w.Write`, as used by `fmt.Fprint(w, ...)`: sends status 200 first if none was sent. -/
def ResponseWriter.Write (w : ResponseWriter) (s : String) : ResponseWriter :=
  ⟨true, (w.WriteHeader 200).status, w.body ++ s⟩

/-- What the server does once the handler returns: status 200 if nothing was sent. -/
def ResponseWriter.finish (w : ResponseWriter) : ResponseWriter :=
  w.WriteHeader 200

/-- The text the handler prints for an empty or failed query. -/
def errorObject : String := "\x7b\"error\" : true\x7d"

/-- Handler `handleAverage` of `src/backend/main.go`.  `sHour` is `mux.Vars(r)["hour"]`,
`findErr` the failure of the query reported by the storage engine, if any. -/
def handleAverage (sHour : String) (findErr : Option String) (db : List Measurement) :
    ResponseWriter :=
  let w : ResponseWriter := ⟨false, 0, ""⟩
  let hour := (ParseInt sHour).1
  let err := (ParseInt sHour).2
  let w := if err.isSome then (w.WriteHeader 400).Write "Error" else w
  let m := if findErr.isSome then [] else Find db hour
  if findErr.isSome ∨ m.length = 0 then
    ((w.WriteHeader 400).Write errorObject).finish
  else
    w.finish

end Backend

/-! ## Specification-side definitions and sample data -/

/-- Value of a decimal digit character. -/
def digitVal (c : Char) : Nat := c.toNat - 48

/-- Value of a digit string, most significant digit first. -/
def decimalVal (cs : List Char) : Nat := cs.foldl (fun a c => 10 * a + digitVal c) 0

/-- The value `setAverage` stores for a mean: the text `null` for NaN, else the number. -/
def entry (i : float64) : Value :=
  if i.IsNaN then Value.str "null" else Value.num i

/-- The map `handleAverage` has built after its loops, for the hours it reads. -/
def built (db : List Measurement) (h0 h1 h2 : Int) : JsonMap :=
  setAverage (Sprint h2) (average (Find db h2))
    (setAverage (Sprint h1) (average (Find db h1))
      (setAverage (Sprint h0) (average (Find db h0)) []))

/-- The mean as the specification words it: the sum of the temperatures of exactly the
records whose hour is `H`, divided by their count. -/
def specMean (db : List Measurement) (H : Int) : float64 :=
  Flt.div
    (((db.filter (fun r => decide (r.Hour = H))).map
      (fun r => Flt.toFloat64 r.Temperature)).foldl Flt.add Flt.zero)
    (Flt.ofInt ((db.filter (fun r => decide (r.Hour = H))).map
      (fun r => Flt.toFloat64 r.Temperature)).length)

/-- Two readings for hour 10 on two dates: 20.0 and 22.0. -/
def twoReadings : List Measurement :=
  [⟨1, 10, "2024-01-01", Flt.fin false 20 0, Flt.fin false 3 0⟩,
   ⟨2, 10, "2024-01-02", Flt.fin false 22 0, Flt.fin false 5 0⟩]

/-- A store whose only row, for hour 10, carries the temperature `+Inf`. -/
def infReading : List Measurement :=
  [⟨1, 10, "2024-01-01", Flt.inf false, Flt.fin false 3 0⟩]

/-- A store with the temperatures `+Inf` and `-Inf` for hour 10. -/
def oppositeInfs : List Measurement :=
  [⟨1, 10, "2024-01-01", Flt.inf false, Flt.fin false 3 0⟩,
   ⟨2, 10, "2024-01-02", Flt.inf true, Flt.fin false 5 0⟩]

/-- A store with one reading, for hour 21. -/
def lateReading : List Measurement :=
  [⟨1, 21, "2024-01-01", Flt.fin false 20 0, Flt.fin false 3 0⟩]

/-- The response to the scenario of the specification: hours 10, 15, 21, two readings. -/
def scenarioResponse : Response :=
  ⟨200, some [("21", Json.str "null"), ("15", Json.str "null"), ("10", Json.num (Flt.ofInt 21))]⟩

/-- The iteration at which the hour changes between the two clock readings: the loop reads
hour 10, `createRecord` reads hour 11 after a successful fetch. -/
def hourTurns : Tick :=
  ⟨⟨2024, 1, 1, 10⟩, none,
    ⟨GetResult.response 200 (Body.weather (Flt.fin false 20 0) (Flt.fin false 3 0)),
     ⟨2024, 1, 1, 11⟩, none, some 204⟩⟩

/-- An iteration on 2024-01-03 at hour 10 with a successful fetch. -/
def thirdDay : Tick :=
  ⟨⟨2024, 1, 3, 10⟩, none,
    ⟨GetResult.response 200 (Body.weather (Flt.fin false 21 0) (Flt.fin false 4 0)),
     ⟨2024, 1, 3, 10⟩, none, some 204⟩⟩

/-- The weather provider answers with status 500 and no transport error. -/
def serverError : World :=
  ⟨GetResult.response 500 (Body.readError "unexpected EOF"), ⟨2024, 1, 1, 10⟩, none, some 204⟩

/-- A store holding one row for hour 11 of 2024-01-01. -/
def elevenOclock : List Measurement :=
  [⟨1, 11, "2024-01-01", Flt.fin false 19 0, Flt.fin false 2 0⟩]

/-- The date as the specification words it, `YYYY-MM-DD`: four digits of the year, two of
the month, two of the day, zero padded and joined by dashes. -/
def dateYMD (year month day : Nat) : String :=
  String.mk [Nat.digitChar (year / 1000), Nat.digitChar (year / 100 % 10),
    Nat.digitChar (year / 10 % 10), Nat.digitChar (year % 10), '-',
    Nat.digitChar (month / 10), Nat.digitChar (month % 10), '-',
    Nat.digitChar (day / 10), Nat.digitChar (day % 10)]

/-! # Theorems -/

/-! ## Decimal rendering is injective -/

theorem digitVal_digitChar (k : Nat) (hk : k < 10) : digitVal (Nat.digitChar k) = k := by
  interval_cases k <;> rfl

theorem isDigit_digitChar (k : Nat) (hk : k < 10) : (Nat.digitChar k).isDigit = true := by
  interval_cases k <;> rfl

theorem foldl_decimal (cs : List Char) (a : Nat) :
    cs.foldl (fun a c => 10 * a + digitVal c) a = a * 10 ^ cs.length + decimalVal cs := by
  induction cs generalizing a with
  | nil => simp [decimalVal]
  | cons c cs ih =>
    simp only [List.foldl_cons, List.length_cons, decimalVal]
    rw [ih, ih (10 * 0 + digitVal c)]
    ring

theorem decimalVal_cons (c : Char) (cs : List Char) :
    decimalVal (c :: cs) = digitVal c * 10 ^ cs.length + decimalVal cs := by
  show List.foldl (fun a c => 10 * a + digitVal c) (10 * 0 + digitVal c) cs = _
  rw [foldl_decimal]
  simp

theorem decimalVal_toDigitsCore (fuel n : Nat) (ds : List Char) (h : n < fuel) :
    decimalVal (Nat.toDigitsCore 10 fuel n ds) = n * 10 ^ ds.length + decimalVal ds := by
  induction fuel generalizing n ds with
  | zero => omega
  | succ fuel ih =>
    simp only [Nat.toDigitsCore]
    have hmod : n % 10 < 10 := Nat.mod_lt _ (by decide)
    split
    · rename_i h0
      rw [decimalVal_cons, digitVal_digitChar _ hmod]
      have : n % 10 = n := by omega
      rw [this]
    · rename_i h0
      rw [ih (n / 10) _ (by omega), decimalVal_cons, digitVal_digitChar _ hmod]
      simp only [List.length_cons, pow_succ]
      have hdm := congrArg (fun x => x * 10 ^ ds.length) (Nat.div_add_mod n 10)
      simp only at hdm
      linarith

theorem all_isDigit_toDigitsCore (fuel n : Nat) (ds : List Char)
    (hds : ∀ c ∈ ds, c.isDigit = true) :
    ∀ c ∈ Nat.toDigitsCore 10 fuel n ds, c.isDigit = true := by
  induction fuel generalizing n ds with
  | zero => simpa [Nat.toDigitsCore] using hds
  | succ fuel ih =>
    have hmod : n % 10 < 10 := Nat.mod_lt _ (by decide)
    have hcons : ∀ c ∈ Nat.digitChar (n % 10) :: ds, c.isDigit = true := by
      intro c hc
      rcases List.mem_cons.1 hc with rfl | hc
      · exact isDigit_digitChar _ hmod
      · exact hds c hc
    simp only [Nat.toDigitsCore]
    split
    · exact hcons
    · exact ih _ _ hcons

theorem repr_injective (a b : Nat) (h : Nat.repr a = Nat.repr b) : a = b := by
  have h1 : Nat.toDigits 10 a = Nat.toDigits 10 b := by
    have := congrArg String.data h
    simpa [Nat.repr, List.asString] using this
  have ha := decimalVal_toDigitsCore (a + 1) a [] (by omega)
  have hb := decimalVal_toDigitsCore (b + 1) b [] (by omega)
  simp only [Nat.toDigits] at h1
  rw [h1] at ha
  simp [decimalVal] at ha hb
  omega

theorem Sprint_injective (a b : Int) (h : Sprint a = Sprint b) : a = b := by
  unfold Sprint at h
  cases a with
  | ofNat m =>
    cases b with
    | ofNat n =>
      have : Nat.repr m = Nat.repr n := h
      rw [repr_injective m n this]
    | negSucc n =>
      exfalso
      have h1 : Nat.repr m = "-" ++ Nat.repr (n + 1) := h
      have h2 := congrArg String.data h1
      have h3 : '-' ∈ (Nat.repr m).data := by rw [h2]; simp
      have h4 := all_isDigit_toDigitsCore (m + 1) m [] (by simp) '-' (by simpa [Nat.repr, Nat.toDigits, List.asString] using h3)
      exact absurd h4 (by decide)
  | negSucc m =>
    cases b with
    | ofNat n =>
      exfalso
      have h1 : "-" ++ Nat.repr (m + 1) = Nat.repr n := h
      have h2 := congrArg String.data h1
      have h3 : '-' ∈ (Nat.repr n).data := by rw [← h2]; simp
      have h4 := all_isDigit_toDigitsCore (n + 1) n [] (by simp) '-' (by simpa [Nat.repr, Nat.toDigits, List.asString] using h3)
      exact absurd h4 (by decide)
    | negSucc n =>
      have h1 : "-" ++ Nat.repr (m + 1) = "-" ++ Nat.repr (n + 1) := h
      have h2 := congrArg String.data h1
      simp only [String.data_append, List.append_cancel_left_eq] at h2
      have h3 : Nat.repr (m + 1) = Nat.repr (n + 1) := String.ext h2
      have := repr_injective _ _ h3
      have : m = n := by omega
      rw [this]

theorem Sprint_eq_iff (a b : Int) : Sprint a = Sprint b ↔ a = b :=
  ⟨Sprint_injective a b, fun h => by rw [h]⟩

/-! ## The date layout -/

theorem toDigitsCore_fuel (f1 : Nat) : ∀ (f2 n : Nat) (ds : List Char), 0 < f1 → 0 < f2 →
    n < 10 ^ f1 → n < 10 ^ f2 →
    Nat.toDigitsCore 10 f1 n ds = Nat.toDigitsCore 10 f2 n ds := by
  induction f1 with
  | zero => intro f2 n ds h; omega
  | succ k ih =>
    intro f2 n ds _ h2 hn1 hn2
    cases f2 with
    | zero => omega
    | succ j =>
      simp only [Nat.toDigitsCore]
      by_cases h0 : n / 10 = 0
      · simp [h0]
      · simp only [h0, if_false]
        have hk : 0 < k := by
          rcases Nat.eq_zero_or_pos k with hk | hk
          · subst hk; simp at hn1; omega
          · exact hk
        have hj : 0 < j := by
          rcases Nat.eq_zero_or_pos j with hj | hj
          · subst hj; simp at hn2; omega
          · exact hj
        apply ih j (n / 10) _ hk hj
        · rw [pow_succ] at hn1; omega
        · rw [pow_succ] at hn2; omega

theorem digitChar_zero : Nat.digitChar 0 = '0' := rfl

theorem toDigits_four (n : Nat) (h : n < 10 ^ 4) :
    Nat.toDigits 10 n = Nat.toDigitsCore 10 4 n [] := by
  unfold Nat.toDigits
  apply toDigitsCore_fuel (n + 1) 4 n [] (by omega) (by omega) _ h
  exact lt_of_lt_of_le (Nat.lt_pow_self (by norm_num) n) (Nat.pow_le_pow_right (by norm_num) (by omega))

theorem repr_four (n : Nat) (h : n < 10000) :
    String.mk (List.replicate (4 - (toString n).length) '0') ++ toString n =
      String.mk [Nat.digitChar (n / 1000), Nat.digitChar (n / 100 % 10),
        Nat.digitChar (n / 10 % 10), Nat.digitChar (n % 10)] := by
  have ht : toString n = String.mk (Nat.toDigitsCore 10 4 n []) := by
    show Nat.repr n = _
    rw [Nat.repr, toDigits_four n (by simpa using h)]
    rfl
  rw [ht]
  apply String.ext
  simp only [String.data_append, String.length, Nat.toDigitsCore]
  by_cases h1 : n / 10 = 0
  · have e1 : n / 1000 = 0 := by omega
    have e2 : n / 100 % 10 = 0 := by omega
    have e3 : n / 10 % 10 = 0 := by omega
    simp [h1, e1, e2, e3, List.replicate, digitChar_zero]
  · by_cases h2 : n / 10 / 10 = 0
    · have e1 : n / 1000 = 0 := by omega
      have e2 : n / 100 % 10 = 0 := by omega
      simp [h1, h2, e1, e2, List.replicate, digitChar_zero]
    · by_cases h3 : n / 10 / 10 / 10 = 0
      · have e1 : n / 1000 = 0 := by omega
        have e2 : n / 10 / 10 % 10 = n / 100 % 10 := by omega
        simp [h1, h2, h3, e1, e2, List.replicate, digitChar_zero]
      · have e1 : n / 10 / 10 / 10 % 10 = n / 1000 := by omega
        have e2 : n / 10 / 10 % 10 = n / 100 % 10 := by omega
        simp [h1, h2, h3, e1, e2, List.replicate, digitChar_zero]

theorem repr_two (n : Nat) (h : n < 100) :
    String.mk (List.replicate (2 - (toString n).length) '0') ++ toString n =
      String.mk [Nat.digitChar (n / 10), Nat.digitChar (n % 10)] := by
  have ht : toString n = String.mk (Nat.toDigitsCore 10 4 n []) := by
    show Nat.repr n = _
    rw [Nat.repr, toDigits_four n (by norm_num; omega)]
    rfl
  rw [ht]
  apply String.ext
  simp only [String.data_append, String.length, Nat.toDigitsCore]
  by_cases h1 : n / 10 = 0
  · simp [h1, List.replicate, digitChar_zero]
  · have h2 : n / 10 / 10 = 0 := by omega
    have e : n / 10 % 10 = n / 10 := by omega
    simp [h1, h2, e, List.replicate, digitChar_zero]

theorem appendInt_four (y : Int) (h0 : 0 ≤ y) (h1 : y ≤ 9999) :
    appendInt y 4 = String.mk [Nat.digitChar (y.toNat / 1000), Nat.digitChar (y.toNat / 100 % 10),
        Nat.digitChar (y.toNat / 10 % 10), Nat.digitChar (y.toNat % 10)] := by
  have hn : y.natAbs = y.toNat := by omega
  have hneg : ¬ y < 0 := by omega
  unfold appendInt
  rw [if_neg hneg, hn]
  have := repr_four y.toNat (by omega)
  rw [← this]
  apply String.ext
  simp

theorem appendInt_two (n : Nat) (h : n < 100) :
    appendInt (n : Int) 2 = String.mk [Nat.digitChar (n / 10), Nat.digitChar (n % 10)] := by
  have hneg : ¬ (n : Int) < 0 := by omega
  unfold appendInt
  rw [if_neg hneg, Int.natAbs_ofNat]
  have := repr_two n h
  rw [← this]
  apply String.ext
  simp

/-- For a calendar date with a four-digit year the layout `2006-01-02` yields
`YYYY-MM-DD`. -/
theorem Format_eq_dateYMD (now : Time) (hy : 0 ≤ now.year ∧ now.year ≤ 9999)
    (hm : now.month ≤ 12) (hd : now.day ≤ 31) :
    now.Format = dateYMD now.year.toNat now.month now.day := by
  unfold Time.Format dateYMD
  rw [appendInt_four now.year hy.1 hy.2, appendInt_two now.month (by omega),
    appendInt_two now.day (by omega)]
  apply String.ext
  simp

/-! ## The `simplejson` map and its serialization -/

theorem lookup_filter_ne (j : JsonMap) (k key : String) (h : k ≠ key) :
    List.lookup k (j.filter (fun p => p.1 != key)) = List.lookup k j := by
  induction j with
  | nil => rfl
  | cons p j ih =>
    obtain ⟨a, b⟩ := p
    by_cases ha : a = key
    · subst ha
      have hk : (k == a) = false := by simpa using h
      simp [List.filter_cons, List.lookup_cons, hk, ih]
    · have hne : (a != key) = true := by simpa using ha
      simp only [List.filter_cons, hne, if_true, List.lookup_cons, ih]

theorem lookup_Set (j : JsonMap) (key k : String) (val : Value) :
    List.lookup k (j.Set key val) = if k = key then some val else List.lookup k j := by
  unfold JsonMap.Set
  by_cases h : k = key
  · subst h
    simp [List.lookup_cons]
  · have hk : (k == key) = false := by simpa using h
    simp [List.lookup_cons, hk, h, lookup_filter_ne j k key h]

theorem setAverage_eq (key : String) (i : float64) (json : JsonMap) :
    setAverage key i json = json.Set key (entry i) := by
  unfold setAverage entry
  split <;> rfl

theorem lookup_MarshalJSON (j : JsonMap) (p : List (String × Json)) (k : String)
    (h : MarshalJSON j = some p) :
    List.lookup k p = (List.lookup k j).bind marshalValue := by
  induction j generalizing p with
  | nil =>
    simp only [MarshalJSON, Option.some.injEq] at h
    subst h
    rfl
  | cons q j ih =>
    obtain ⟨a, v⟩ := q
    simp only [MarshalJSON] at h
    split at h
    · rename_i jv js hv hjs
      simp only [Option.some.injEq] at h
      subst h
      by_cases hk : k = a
      · subst hk
        simp [List.lookup_cons, hv]
      · have hk1 : (k == a) = false := by simpa using hk
        simp [List.lookup_cons, hk1, ih js hjs]
    · exact absurd h (by simp)

theorem keys_MarshalJSON (j : JsonMap) (p : List (String × Json))
    (h : MarshalJSON j = some p) : p.map Prod.fst = j.map Prod.fst := by
  induction j generalizing p with
  | nil =>
    simp only [MarshalJSON, Option.some.injEq] at h
    subst h
    rfl
  | cons q j ih =>
    obtain ⟨a, v⟩ := q
    simp only [MarshalJSON] at h
    split at h
    · rename_i jv js hv hjs
      simp only [Option.some.injEq] at h
      subst h
      simp [ih js hjs]
    · exact absurd h (by simp)

theorem mem_keys_Set (j : JsonMap) (key k : String) (val : Value) :
    k ∈ (j.Set key val).map Prod.fst ↔ k = key ∨ k ∈ j.map Prod.fst := by
  unfold JsonMap.Set
  simp only [List.map_cons, List.mem_cons, List.mem_map, List.mem_filter, bne_iff_ne, ne_eq,
    Prod.exists, exists_and_right, exists_eq_right]
  constructor
  · rintro (h | ⟨hv, _⟩)
    · exact Or.inl h
    · exact Or.inr hv
  · rintro (h | hv)
    · exact Or.inl h
    · by_cases hk : k = key
      · exact Or.inl hk
      · exact Or.inr ⟨hv, hk⟩

theorem nodup_keys_Set (j : JsonMap) (key : String) (val : Value)
    (h : (j.map Prod.fst).Nodup) : ((j.Set key val).map Prod.fst).Nodup := by
  unfold JsonMap.Set
  simp only [List.map_cons, List.nodup_cons]
  constructor
  · simp
  · exact (h.sublist (List.Sublist.map _ (List.filter_sublist _)))

theorem handleAverage_cons (db : List Measurement) (h0 h1 h2 : Int) (rest : List Int) :
    handleAverage (h0 :: h1 :: h2 :: rest) db =
      match MarshalJSON (built db h0 h1 h2) with
      | none => some ⟨500, none⟩
      | some payload => some ⟨200, some payload⟩ := by
  rfl

theorem handleAverage_short (db : List Measurement) (hours : List Int)
    (h : hours.length < 3) : handleAverage hours db = none := by
  rcases hours with _ | ⟨h0, _ | ⟨h1, _ | ⟨h2, rest⟩⟩⟩
  · rfl
  · rfl
  · rfl
  · simp at h; omega

theorem lookup_built (db : List Measurement) (h0 h1 h2 H : Int)
    (hH : H = h0 ∨ H = h1 ∨ H = h2) :
    List.lookup (Sprint H) (built db h0 h1 h2) = some (entry (average (Find db H))) := by
  simp only [built, setAverage_eq, lookup_Set, Sprint_eq_iff]
  rcases hH with h | h | h
  · subst h
    split
    · rename_i e; rw [e]
    · split
      · rename_i e; rw [e]
      · simp
  · subst h
    split
    · rename_i e; rw [e]
    · simp
  · subst h
    simp

theorem keys_built (db : List Measurement) (h0 h1 h2 : Int) :
    ((built db h0 h1 h2).map Prod.fst).Nodup ∧
      ∀ k, k ∈ (built db h0 h1 h2).map Prod.fst ↔ k ∈ [h0, h1, h2].map Sprint := by
  simp only [built, setAverage_eq]
  constructor
  · exact nodup_keys_Set _ _ _ (nodup_keys_Set _ _ _ (nodup_keys_Set _ _ _ List.nodup_nil))
  · intro k
    simp only [mem_keys_Set, List.map_nil, List.not_mem_nil, or_false, List.map_cons,
      List.mem_cons]
    tauto

/-! ## Facts about the floating point operations -/

theorem bitLenAux_le (fuel n k : Nat) (h : n < 2 ^ k) : bitLenAux fuel n ≤ k := by
  induction fuel generalizing n k with
  | zero => simp [bitLenAux]
  | succ fuel ih =>
    simp only [bitLenAux]
    split
    · omega
    · rename_i hn
      cases k with
      | zero => simp at h; omega
      | succ k =>
        have : n / 2 < 2 ^ k := by
          rw [pow_succ] at h
          omega
        have := ih (n / 2) k this
        omega

theorem bitLen_le (n k : Nat) (h : n < 2 ^ k) : bitLen n ≤ k :=
  bitLenAux_le n n k h

theorem two_pow_bitLenAux (fuel n : Nat) (hf : n ≤ fuel) (hn : n ≠ 0) :
    2 ^ bitLenAux fuel n ≤ 2 * n := by
  induction fuel generalizing n with
  | zero => omega
  | succ fuel ih =>
    simp only [bitLenAux, if_neg hn]
    by_cases h2 : n / 2 = 0
    · have h0 : bitLenAux fuel (n / 2) = 0 := by
        rw [h2]
        cases fuel <;> simp [bitLenAux]
      rw [h0]
      simp
      omega
    · have := ih (n / 2) (by omega) h2
      rw [pow_succ]
      omega

theorem two_pow_bitLen (n : Nat) (hn : n ≠ 0) : 2 ^ bitLen n ≤ 2 * n :=
  two_pow_bitLenAux n n (le_refl n) hn

namespace Flt

theorem pack_ne_nan (s : Bool) (q : Nat) (e : Int) : (pack s q e).IsNaN = false := by
  unfold pack
  split
  · rfl
  · split <;> rfl

theorem round64_ne_nan (s : Bool) (m : Nat) (e : Int) : (round64 s m e).IsNaN = false := by
  simp only [round64]
  split_ifs <;> first | rfl | exact pack_ne_nan _ _ _

theorem le_roundQuot (m k : Nat) : m / 2 ^ k ≤ roundQuot m k := by
  simp only [roundQuot]
  split_ifs <;> omega

theorem pack_fin (s : Bool) (q : Nat) (e : Int) (hq : q ≠ 0) (he : e ≤ 971) :
    pack s q e = fin s q e := by
  unfold pack
  rw [if_neg hq, if_neg (by omega)]

/-- A finite `float32` value converts to a finite `float64` value. -/
theorem toFloat64_finite (x : Flt) (h : x.isFinite32 = true) :
    ∃ s m e, toFloat64 x = fin s m e := by
  cases x with
  | nan => simp [isFinite32] at h
  | inf s => simp [isFinite32] at h
  | fin s m e =>
    simp only [isFinite32, Bool.and_eq_true, decide_eq_true_eq] at h
    obtain ⟨⟨hm, he1⟩, he2⟩ := h
    have hb := bitLen_le m 24 hm
    simp only [toFloat64, round64]
    split
    · exact ⟨_, _, _, rfl⟩
    · rename_i hm0
      have hle : max (e + (bitLen m : Int) - 53) (-1074) ≤ e := by omega
      rw [if_pos hle, pack_fin]
      · exact ⟨_, _, _, rfl⟩
      · exact Nat.mul_ne_zero hm0 (by positivity)
      · omega

theorem add_ne_nan (x y : Flt) (hx : x.IsNaN = false) (hy : ∃ s m e, y = fin s m e) :
    (add x y).IsNaN = false := by
  obtain ⟨s, m, e, rfl⟩ := hy
  cases x with
  | nan => simp [IsNaN] at hx
  | inf t => rfl
  | fin t n f =>
    simp only [add]
    split_ifs <;> first | rfl | exact round64_ne_nan _ _ _

/-- The conversion of a positive row count (below `2 ^ 63`) is a nonzero finite value. -/
theorem ofInt_pos (n : Nat) (h0 : n ≠ 0) (h : n < 2 ^ 63) :
    ∃ m e, ofInt (n : Int) = fin false m e ∧ m ≠ 0 := by
  have hb := bitLen_le n 63 h
  have hlow := two_pow_bitLen n h0
  have hneg : decide ((n : Int) < 0) = false := by simp
  simp only [ofInt, Int.natAbs_ofNat, hneg, round64, if_neg h0]
  split
  · rename_i hle
    rw [pack_fin _ _ _ (Nat.mul_ne_zero h0 (by positivity)) (by omega)]
    exact ⟨_, _, rfl, Nat.mul_ne_zero h0 (by positivity)⟩
  · rename_i hle
    have hmax : max (0 + (bitLen n : Int) - 53) (-1074) = (bitLen n : Int) - 53 := by omega
    simp only [hmax] at hle ⊢
    have hk : ((bitLen n : Int) - 53 - 0).toNat = bitLen n - 53 := by omega
    simp only [hk]
    have hq : roundQuot n (bitLen n - 53) ≠ 0 := by
      have h1 : 2 ^ (bitLen n - 53) ≤ n := by
        have h2 : 2 ^ (bitLen n - 53) * 2 ^ 53 = 2 ^ bitLen n := by
          rw [← pow_add]
          congr 1
          omega
        have h3 : (2:Nat) ^ 53 ≥ 2 := by norm_num
        nlinarith
      have h4 := Nat.div_pos h1 (by positivity)
      have h5 := le_roundQuot n (bitLen n - 53)
      omega
    split
    · rw [pack_fin _ _ _ (by positivity) (by omega)]
      exact ⟨_, _, rfl, by positivity⟩
    · rw [pack_fin _ _ _ hq (by omega)]
      exact ⟨_, _, rfl, hq⟩

theorem div_ne_nan (x y : Flt) (hx : x.IsNaN = false)
    (hy : ∃ m e, y = fin false m e ∧ m ≠ 0) : (div x y).IsNaN = false := by
  obtain ⟨m, e, rfl, hm⟩ := hy
  cases x with
  | nan => simp [IsNaN] at hx
  | inf t => rfl
  | fin t n f =>
    simp only [div, if_neg hm]
    exact round64_ne_nan _ _ _

end Flt

theorem sum_ne_nan (rows : List Measurement) (acc : Flt) (hacc : acc.IsNaN = false)
    (hfin : ∀ r ∈ rows, r.Temperature.isFinite32 = true) :
    (rows.foldl (fun sum y => Flt.add sum (Flt.toFloat64 y.Temperature)) acc).IsNaN = false := by
  induction rows generalizing acc with
  | nil => simpa using hacc
  | cons r rows ih =>
    simp only [List.foldl_cons]
    apply ih
    · exact Flt.add_ne_nan _ _ hacc (Flt.toFloat64_finite _ (hfin r (List.mem_cons_self _ _)))
    · intro x hx
      exact hfin x (List.mem_cons_of_mem _ hx)

/-- With finite temperatures, a nonempty selection never averages to NaN. -/
theorem average_ne_nan (rows : List Measurement) (hne : rows ≠ [])
    (hlen : rows.length < 2 ^ 63) (hfin : ∀ r ∈ rows, r.Temperature.isFinite32 = true) :
    (average rows).IsNaN = false := by
  unfold average
  apply Flt.div_ne_nan
  · exact sum_ne_nan rows Flt.zero rfl hfin
  · exact Flt.ofInt_pos rows.length (by simpa using hne) hlen

theorem average_nil : average [] = Flt.nan := by decide

/-! ## Aggregate endpoint -/

theorem average_Find_eq_specMean (db : List Measurement) (H : Int) :
    average (Find db H) = specMean db H := by
  simp [average, Find, specMean, List.foldl_map]

theorem lookup_MarshalJSON_some (j : JsonMap) (p : List (String × Json)) (k : String)
    (v : Value) (h : MarshalJSON j = some p) (hv : List.lookup k j = some v) :
    ∃ jv, marshalValue v = some jv ∧ List.lookup k p = some jv := by
  induction j generalizing p with
  | nil => simp at hv
  | cons q j ih =>
    obtain ⟨a, u⟩ := q
    simp only [MarshalJSON] at h
    split at h
    · rename_i ju js hu hjs
      simp only [Option.some.injEq] at h
      subst h
      by_cases hk : k = a
      · subst hk
        simp only [List.lookup_cons, beq_self_eq_true, Option.some.injEq] at hv ⊢
        subst hv
        exact ⟨ju, hu, rfl⟩
      · have hk1 : (k == a) = false := by simpa using hk
        simp only [List.lookup_cons, hk1] at hv ⊢
        exact ih js hjs hv
    · exact absurd h (by simp)

/-- In a 200 response, what stands under the key of one of the three hours read by the
handler is the serialization of the entry computed from that hour's rows. -/
theorem value_of_ok (hours : List Int) (db : List Measurement) (resp : Response) (H : Int)
    (hresp : handleAverage hours db = some resp) (hok : resp.status = 200)
    (hH : H ∈ hours.take 3) :
    ∃ jv, marshalValue (entry (average (Find db H))) = some jv ∧
      resp.value (Sprint H) = some jv := by
  rcases hours with _ | ⟨h0, _ | ⟨h1, _ | ⟨h2, rest⟩⟩⟩
  · simp at hH
  · rw [handleAverage_short _ _ (by simp)] at hresp; simp at hresp
  · rw [handleAverage_short _ _ (by simp)] at hresp; simp at hresp
  · rw [handleAverage_cons] at hresp
    have hH3 : H = h0 ∨ H = h1 ∨ H = h2 := by simpa using hH
    have hl := lookup_built db h0 h1 h2 H hH3
    cases hm : MarshalJSON (built db h0 h1 h2) with
    | none =>
      rw [hm] at hresp
      simp only [Option.some.injEq] at hresp
      subst hresp
      simp at hok
    | some payload =>
      rw [hm] at hresp
      simp only [Option.some.injEq] at hresp
      subst hresp
      obtain ⟨jv, h1, h2⟩ := lookup_MarshalJSON_some _ _ _ _ hm hl
      exact ⟨jv, h1, by simpa [Response.value] using h2⟩

theorem Find_eq_nil (db : List Measurement) (H : Int) (h : ∀ r ∈ db, r.Hour ≠ H) :
    Find db H = [] := by
  simp only [Find, List.filter_eq_nil_iff, decide_eq_true_eq]
  exact h

theorem Find_ne_nil (db : List Measurement) (H : Int) (h : ∃ r ∈ db, r.Hour = H) :
    Find db H ≠ [] := by
  obtain ⟨r, hr, hH⟩ := h
  intro hnil
  have : r ∈ Find db H := by simp [Find, hr, hH]
  rw [hnil] at this
  simp at this

theorem Find_length_le (db : List Measurement) (H : Int) : (Find db H).length ≤ db.length :=
  List.length_filter_le _ _

theorem mem_Find (db : List Measurement) (H : Int) (r : Measurement) (h : r ∈ Find db H) :
    r ∈ db ∧ r.Hour = H := by
  simpa [Find] using h

/-- In a 200 response the value for an hour with rows and finite temperatures is the
number `average (Find db H)`. -/
theorem value_of_rows (hours : List Int) (db : List Measurement) (resp : Response) (H : Int)
    (hresp : handleAverage hours db = some resp) (hok : resp.status = 200)
    (hH : H ∈ hours.take 3) (hrec : ∃ r ∈ db, r.Hour = H)
    (hfin : ∀ r ∈ db, r.Hour = H → r.Temperature.isFinite32 = true)
    (hlen : db.length < 2 ^ 63) :
    resp.value (Sprint H) = some (Json.num (average (Find db H))) := by
  obtain ⟨jv, h1, h2⟩ := value_of_ok hours db resp H hresp hok hH
  have hnan : (average (Find db H)).IsNaN = false :=
    average_ne_nan _ (Find_ne_nil db H hrec)
      (lt_of_le_of_lt (Find_length_le db H) hlen)
      (fun r hr => hfin r (mem_Find db H r hr).1 (mem_Find db H r hr).2)
  rw [h2]
  have he : entry (average (Find db H)) = Value.num (average (Find db H)) := by
    simp [entry, hnan]
  rw [he] at h1
  simp only [marshalValue] at h1
  split_ifs at h1
  simp only [Option.some.injEq] at h1
  rw [← h1]

/-- In a 200 response the value for an hour without rows is the text `null`. -/
theorem value_of_no_rows (hours : List Int) (db : List Measurement) (resp : Response)
    (H : Int) (hresp : handleAverage hours db = some resp) (hok : resp.status = 200)
    (hH : H ∈ hours.take 3) (hnone : ∀ r ∈ db, r.Hour ≠ H) :
    resp.value (Sprint H) = some (Json.str "null") := by
  obtain ⟨jv, h1, h2⟩ := value_of_ok hours db resp H hresp hok hH
  rw [Find_eq_nil db H hnone, average_nil] at h1
  simp only [entry, Flt.IsNaN, if_true, marshalValue, Option.some.injEq] at h1
  rw [h2, ← h1]

theorem MarshalJSON_isSome (j : JsonMap) (h : ∀ p ∈ j, (marshalValue p.2).isSome = true) :
    (MarshalJSON j).isSome = true := by
  induction j with
  | nil => rfl
  | cons q j ih =>
    obtain ⟨a, v⟩ := q
    have hv := h (a, v) (List.mem_cons_self _ _)
    have hj := ih (fun p hp => h p (List.mem_cons_of_mem _ hp))
    simp only [MarshalJSON]
    cases h1 : marshalValue v with
    | none => simp [h1] at hv
    | some jv =>
      cases h2 : MarshalJSON j with
      | none => simp [h2] at hj
      | some js => rfl

theorem mem_Set (j : JsonMap) (key : String) (val : Value) (p : String × Value)
    (h : p ∈ j.Set key val) : p = (key, val) ∨ p ∈ j := by
  unfold JsonMap.Set at h
  rcases List.mem_cons.1 h with h | h
  · exact Or.inl h
  · exact Or.inr (List.mem_filter.1 h).1

theorem mem_built (db : List Measurement) (h0 h1 h2 : Int) (p : String × Value)
    (h : p ∈ built db h0 h1 h2) :
    ∃ H, (H = h0 ∨ H = h1 ∨ H = h2) ∧ p.2 = entry (average (Find db H)) := by
  simp only [built, setAverage_eq] at h
  rcases mem_Set _ _ _ _ h with h | h
  · exact ⟨h2, Or.inr (Or.inr rfl), by rw [h]⟩
  · rcases mem_Set _ _ _ _ h with h | h
    · exact ⟨h1, Or.inr (Or.inl rfl), by rw [h]⟩
    · rcases mem_Set _ _ _ _ h with h | h
      · exact ⟨h0, Or.inl rfl, by rw [h]⟩
      · simp at h

theorem marshalValue_entry (f : float64) :
    (marshalValue (entry f)).isSome = true ↔ f.IsInf = false := by
  cases f with
  | nan => simp [entry, marshalValue, Flt.IsNaN, Flt.IsInf]
  | inf s => simp [entry, marshalValue, Flt.IsNaN, Flt.IsInf]
  | fin s m e => simp [entry, marshalValue, Flt.IsNaN, Flt.IsInf]

/-- The handler answers 200 exactly when none of the three means it computes is infinite;
otherwise serialization fails and it answers 500. -/
theorem status_200_iff (db : List Measurement) (h0 h1 h2 : Int) (rest : List Int)
    (resp : Response) (hresp : handleAverage (h0 :: h1 :: h2 :: rest) db = some resp) :
    resp.status = 200 ↔
      ∀ H, (H = h0 ∨ H = h1 ∨ H = h2) → (average (Find db H)).IsInf = false := by
  constructor
  · intro hok H hH
    obtain ⟨jv, hj, _⟩ := value_of_ok (h0 :: h1 :: h2 :: rest) db resp H hresp hok
      (by simpa using hH)
    exact (marshalValue_entry _).1 (by simp [hj])
  · intro hall
    have hs : (MarshalJSON (built db h0 h1 h2)).isSome = true := by
      apply MarshalJSON_isSome
      intro p hp
      obtain ⟨H, hH, hp2⟩ := mem_built db h0 h1 h2 p hp
      rw [hp2]
      exact (marshalValue_entry _).2 (hall H hH)
    rw [handleAverage_cons] at hresp
    cases hm : MarshalJSON (built db h0 h1 h2) with
    | none => simp [hm] at hs
    | some payload =>
      rw [hm] at hresp
      simp only [Option.some.injEq] at hresp
      rw [← hresp]

/-- C1 (amended): in every 200 response of the aggregate handler, for each of the three
hours it reads (`HOUR_TO_RECORD[0..2]`) that has at least one stored record, all of whose
temperatures are finite, the value under the key of that hour is the number
sum(temperature)/count taken over exactly the records whose `Hour` is that hour. -/
theorem aggregate_reports_mean (hours : List Int) (db : List Measurement) (resp : Response)
    (H : Int) (hresp : handleAverage hours db = some resp) (hok : resp.status = 200)
    (hH : H ∈ hours.take 3) (hrec : ∃ r ∈ db, r.Hour = H)
    (hfin : ∀ r ∈ db, r.Hour = H → r.Temperature.isFinite32 = true)
    (hlen : db.length < 2 ^ 63) :
    resp.value (Sprint H) = some (Json.num (specMean db H)) := by
  rw [← average_Find_eq_specMean]
  exact value_of_rows hours db resp H hresp hok hH hrec hfin hlen

/-- Witness for C1: 20.0 and 22.0 for hour 10 on two dates are reported as 21.0. -/
theorem scenario_hour10_reads_21 :
    handleAverage [10, 15, 21] twoReadings = some scenarioResponse ∧
      scenarioResponse.value (Sprint 10) = some (Json.num (specMean twoReadings 10)) ∧
      specMean twoReadings 10 = Flt.ofInt 21 :=
  ⟨by decide,
   aggregate_reports_mean [10, 15, 21] twoReadings scenarioResponse 10 (by decide) (by decide)
     (by decide) (by decide) (by decide) (by decide),
   by decide⟩

/-- Counterexample to C1 as stated: a record for the configured hour 10 exists, yet the
handler answers 500 without a body because the mean `+Inf` cannot be serialized; a record
for a fourth configured hour is not reported at all; and with the temperatures `+Inf` and
`-Inf` for hour 10 the value under that key is not a number. -/
theorem infinite_mean_gives_500 :
    ((∃ r ∈ infReading, r.Hour = 10) ∧
      handleAverage [10, 15, 20] infReading = some ⟨500, none⟩ ∧
      (handleAverage [10, 15, 20] infReading).bind (fun r => r.value (Sprint 10)) = none) ∧
    ((∃ r ∈ lateReading, r.Hour = 21) ∧
      (handleAverage [10, 15, 20, 21] lateReading).bind (fun r => r.value (Sprint 21)) = none) ∧
    ((∃ r ∈ oppositeInfs, r.Hour = 10) ∧
      ∀ f, (handleAverage [10, 15, 20] oppositeInfs).bind (fun r => r.value (Sprint 10))
        ≠ some (Json.num f)) := by
  refine ⟨by decide, by decide, by decide, fun f => ?_⟩
  have h : (handleAverage [10, 15, 20] oppositeInfs).bind (fun r => r.value (Sprint 10))
      = some (Json.str "null") := by decide
  rw [h]
  simp

/-- C2 (amended): in every 200 response of the aggregate handler, for each of the three
hours it reads that has no stored record, the value under the key of that hour is the
JSON string `"null"`: a string, neither JSON null nor a number. -/
theorem aggregate_no_data_is_string (hours : List Int) (db : List Measurement) (resp : Response)
    (H : Int) (hresp : handleAverage hours db = some resp) (hok : resp.status = 200)
    (hH : H ∈ hours.take 3) (hnone : ∀ r ∈ db, r.Hour ≠ H) :
    resp.value (Sprint H) = some (Json.str "null") ∧
      resp.value (Sprint H) ≠ some Json.null ∧
      ∀ f, resp.value (Sprint H) ≠ some (Json.num f) := by
  have h := value_of_no_rows hours db resp H hresp hok hH hnone
  rw [h]
  simp

/-- Witness for C2: hours 10, 15, 21 with data for hour 10 only; hour 15 reads `"null"`. -/
theorem scenario_hour15_reads_string :
    scenarioResponse.value (Sprint 15) = some (Json.str "null") ∧
      scenarioResponse.value (Sprint 15) ≠ some Json.null ∧
      ∀ f, scenarioResponse.value (Sprint 15) ≠ some (Json.num f) :=
  aggregate_no_data_is_string [10, 15, 21] twoReadings scenarioResponse 15 (by decide) (by decide)
    (by decide) (by decide)

/-- Counterexample to C2 as stated: in the scenario of the specification the values under
the keys 15 and 21 are the string `"null"`, not JSON null; and when the response is 500
nothing is reported for an hour without records. -/
theorem scenario_no_data_not_json_null :
    (handleAverage [10, 15, 21] twoReadings).bind (fun r => r.value (Sprint 15))
        = some (Json.str "null") ∧
      (handleAverage [10, 15, 21] twoReadings).bind (fun r => r.value (Sprint 15))
        ≠ some Json.null ∧
      (handleAverage [10, 15, 21] twoReadings).bind (fun r => r.value (Sprint 21))
        ≠ some Json.null ∧
      ((∀ r ∈ infReading, r.Hour ≠ 15) ∧
        (handleAverage [10, 15, 20] infReading).bind (fun r => r.value (Sprint 15)) = none) := by
  decide

/-- C3 (amended): in every 200 response of the aggregate handler, for each of the three
hours it reads whose stored temperatures are all finite, the value under the key of that
hour is the string `"null"` if and only if no stored record has that hour; when a record
exists the value is the numeric mean. -/
theorem aggregate_sentinel_iff_no_record (hours : List Int) (db : List Measurement) (resp : Response)
    (H : Int) (hresp : handleAverage hours db = some resp) (hok : resp.status = 200)
    (hH : H ∈ hours.take 3)
    (hfin : ∀ r ∈ db, r.Hour = H → r.Temperature.isFinite32 = true)
    (hlen : db.length < 2 ^ 63) :
    (resp.value (Sprint H) = some (Json.str "null") ↔ ∀ r ∈ db, r.Hour ≠ H) ∧
      ((∃ r ∈ db, r.Hour = H) →
        resp.value (Sprint H) = some (Json.num (average (Find db H)))) := by
  by_cases hrec : ∃ r ∈ db, r.Hour = H
  · have h := value_of_rows hours db resp H hresp hok hH hrec hfin hlen
    refine ⟨⟨fun hs => ?_, fun hn => ?_⟩, fun _ => h⟩
    · rw [h] at hs
      simp at hs
    · obtain ⟨r, hr, hH1⟩ := hrec
      exact absurd hH1 (hn r hr)
  · have hnone : ∀ r ∈ db, r.Hour ≠ H := fun r hr hH1 => hrec ⟨r, hr, hH1⟩
    exact ⟨⟨fun _ => hnone, fun _ => value_of_no_rows hours db resp H hresp hok hH hnone⟩,
      fun h => absurd h hrec⟩

/-- Witness for C3: in the scenario of the specification, hour 21 has no record and reads
`"null"`. -/
theorem scenario_hour21_sentinel :
    (scenarioResponse.value (Sprint 21) = some (Json.str "null") ↔
        ∀ r ∈ twoReadings, r.Hour ≠ 21) ∧
      ((∃ r ∈ twoReadings, r.Hour = 21) →
        scenarioResponse.value (Sprint 21) = some (Json.num (average (Find twoReadings 21)))) :=
  aggregate_sentinel_iff_no_record [10, 15, 21] twoReadings scenarioResponse 21 (by decide) (by decide)
    (by decide) (by decide) (by decide)

/-- Counterexample to C3 as stated: with the temperatures `+Inf` and `-Inf` stored for
hour 10 the sum is NaN and the handler reports `"null"` although records exist; and when
the response is 500 an hour without records is not reported as `"null"`. -/
theorem opposite_infinities_read_sentinel :
    (∃ r ∈ oppositeInfs, r.Hour = 10) ∧
      (handleAverage [10, 15, 20] oppositeInfs).bind (fun r => r.value (Sprint 10))
        = some (Json.str "null") ∧
      ((∀ r ∈ infReading, r.Hour ≠ 20) ∧
        (handleAverage [10, 15, 20] infReading).bind (fun r => r.value (Sprint 20))
          ≠ some (Json.str "null")) := by
  decide

/-- C4 (amended): for every list of at least three configured hours and every store the
aggregate handler completes, with status 200 or with status 500 and no body; the object of
a 200 response has exactly the keys of the first three configured hours, rendered in
decimal, each once, and no other key. -/
theorem aggregate_keys_first_three (hours : List Int) (db : List Measurement) (h3 : 3 ≤ hours.length) :
    ∃ resp, handleAverage hours db = some resp ∧
      (resp.status = 200 ∨ (resp.status = 500 ∧ resp.payload = none)) ∧
      (resp.status = 200 →
        resp.keys.Nodup ∧ ∀ k, k ∈ resp.keys ↔ k ∈ (hours.take 3).map Sprint) := by
  rcases hours with _ | ⟨h0, _ | ⟨h1, _ | ⟨h2, rest⟩⟩⟩
  · simp at h3
  · simp at h3
  · simp at h3
  · rw [handleAverage_cons]
    cases hm : MarshalJSON (built db h0 h1 h2) with
    | none => exact ⟨⟨500, none⟩, rfl, Or.inr ⟨rfl, rfl⟩, fun h => by simp at h⟩
    | some payload =>
      refine ⟨⟨200, some payload⟩, rfl, Or.inl rfl, fun _ => ?_⟩
      have hk := keys_MarshalJSON _ _ hm
      have hb := keys_built db h0 h1 h2
      simp only [Response.keys, hk]
      exact ⟨hb.1, fun k => by simpa using hb.2 k⟩

/-- Witness for C4: three configured hours. -/
theorem scenario_keys :
    ∃ resp, handleAverage [10, 15, 21] twoReadings = some resp ∧
      (resp.status = 200 ∨ (resp.status = 500 ∧ resp.payload = none)) ∧
      (resp.status = 200 →
        resp.keys.Nodup ∧
          ∀ k, k ∈ resp.keys ↔ k ∈ (([10, 15, 21] : List Int).take 3).map Sprint) :=
  aggregate_keys_first_three [10, 15, 21] twoReadings (by decide)

/-- Counterexample to C4 as stated: with two configured hours the handler panics, and with
four the key of the fourth hour is missing from the response. -/
theorem two_or_four_hours_break_keys :
    handleAverage [10, 15] twoReadings = none ∧
      (handleAverage [10, 15, 20, 21] lateReading).map Response.keys
        = some ["20", "15", "10"] := by
  decide

/-! ## Poller -/

theorem alertAndPanic_db (err : Option String) (w : World) (db : List Measurement)
    (trace : List Event) : (alertAndPanic err w db trace).db = db := by
  unfold alertAndPanic
  split <;> rfl

theorem alertAndPanic_exit (err : Option String) (w : World) (db : List Measurement)
    (trace : List Event) : (alertAndPanic err w db trace).exit ≠ Exit.returned := by
  unfold alertAndPanic logProblemToDS
  cases err with
  | none => simp
  | some msg => cases w.post <;> simp

/-- Every failure whose `err` is non-nil sends the alert before the process ends. -/
theorem alertAndPanic_posts (msg : String) (w : World) (db : List Measurement)
    (trace : List Event) :
    (alertAndPanic (some msg) w db trace).trace = trace ++ [Event.httpPost (alertBody msg)] := by
  unfold alertAndPanic logProblemToDS
  cases w.post <;> rfl

/-- A call of `createRecord` either leaves the store alone and panics, or returns after
appending one row built from the row count, its own clock reading and the fetched values. -/
theorem createRecord_cases (w : World) (db : List Measurement) (trace : List Event) :
    ((createRecord w db trace).db = db ∧ (createRecord w db trace).exit ≠ Exit.returned) ∨
    (∃ T W, w.get = GetResult.response 200 (Body.weather T W) ∧
      (createRecord w db trace).exit = Exit.returned ∧
      (createRecord w db trace).trace = trace ++ [Event.httpGet] ∧
      (createRecord w db trace).db =
        db ++ [⟨(db.length : Int) + 1, w.now.hour, w.now.Format, T, W⟩]) := by
  unfold createRecord
  simp only
  cases hg : w.get with
  | failed err => exact Or.inl ⟨alertAndPanic_db _ _ _ _, alertAndPanic_exit _ _ _ _⟩
  | response code body =>
    simp only
    by_cases hc : code = 200
    · subst hc
      simp only [ne_eq, not_true_eq_false, if_false]
      cases body with
      | readError err => exact Or.inl ⟨alertAndPanic_db _ _ _ _, alertAndPanic_exit _ _ _ _⟩
      | decodeError err => exact Or.inl ⟨alertAndPanic_db _ _ _ _, alertAndPanic_exit _ _ _ _⟩
      | weather T W =>
        simp only
        cases hcr : Create db ⟨(db.length : Int) + 1, w.now.hour, w.now.Format, T, W⟩
            w.createErr with
        | error err => exact Or.inl ⟨alertAndPanic_db _ _ _ _, alertAndPanic_exit _ _ _ _⟩
        | ok db1 =>
          refine Or.inr ⟨T, W, rfl, rfl, rfl, ?_⟩
          unfold Create at hcr
          split at hcr
          · simp at hcr
          · split at hcr
            · simp at hcr
            · simp only [Except.ok.injEq] at hcr
              exact hcr.symm
    · simp only [ne_eq, hc, not_false_eq_true, if_true]
      exact Or.inl ⟨alertAndPanic_db _ _ _ _, alertAndPanic_exit _ _ _ _⟩

/-- Outside the target hours an iteration does nothing at all. -/
theorem timePollingStep_off_hours (hours : List Int) (t : Tick) (db : List Measurement)
    (h : checkItemInArray t.now.hour hours = false) :
    timePollingStep hours t db = ⟨db, [], Exit.returned⟩ := by
  simp [timePollingStep, h]

theorem checkItemInArray_iff (x : Int) (array : List Int) :
    checkItemInArray x array = true ↔ x ∈ array := by
  induction array with
  | nil => simp [checkItemInArray]
  | cons a array ih =>
    simp only [checkItemInArray, List.mem_cons]
    split
    · rename_i h; simp [h]
    · rename_i h
      rw [ih]
      constructor
      · exact Or.inr
      · rintro (h1 | h1)
        · exact absurd h1.symm h
        · exact h1

theorem timePollingStep_lookup_ok (hours : List Int) (t : Tick) (db : List Measurement)
    (hin : checkItemInArray t.now.hour hours = true)
    (hl : Last db t.now.hour t.now.Format t.lastErr = none) :
    timePollingStep hours t db = ⟨db, [Event.sleep], Exit.returned⟩ := by
  simp [timePollingStep, hin, hl]

theorem timePollingStep_lookup_err (hours : List Int) (t : Tick) (db : List Measurement)
    (hin : checkItemInArray t.now.hour hours = true)
    (hl : (Last db t.now.hour t.now.Format t.lastErr).isSome = true) :
    timePollingStep hours t db =
      match (createRecord t.world db []).exit with
      | Exit.returned =>
        ⟨(createRecord t.world db []).db, (createRecord t.world db []).trace ++ [Event.sleep],
          Exit.returned⟩
      | _ => createRecord t.world db [] := by
  simp [timePollingStep, hin, hl]

theorem Last_none_of_record (db : List Measurement) (hour : Int) (date : String)
    (h : ∃ r ∈ db, r.Hour = hour ∧ r.Date = date) : Last db hour date none = none := by
  obtain ⟨r, hr, h1, h2⟩ := h
  simp only [Last]
  rw [if_pos]
  simp only [List.any_eq_true, Bool.and_eq_true, decide_eq_true_eq]
  exact ⟨r, hr, h1, h2⟩

theorem Last_isSome_iff (db : List Measurement) (hour : Int) (date : String) :
    (Last db hour date none).isSome = true ↔ ¬ ∃ r ∈ db, r.Hour = hour ∧ r.Date = date := by
  constructor
  · intro h hex
    rw [Last_none_of_record db hour date hex] at h
    simp at h
  · intro h
    simp only [Last]
    rw [if_neg]
    · rfl
    · simp only [List.any_eq_true, Bool.and_eq_true, decide_eq_true_eq]
      exact h

/-- The store after an iteration: unchanged, or one row appended by `createRecord` after a
lookup error in a target hour. -/
theorem timePollingStep_db (hours : List Int) (t : Tick) (db : List Measurement) :
    (timePollingStep hours t db).db = db ∨
    ((Last db t.now.hour t.now.Format t.lastErr).isSome = true ∧
      ∃ T W, (timePollingStep hours t db).db =
        db ++ [⟨(db.length : Int) + 1, t.world.now.hour, t.world.now.Format, T, W⟩]) := by
  cases hin : checkItemInArray t.now.hour hours with
  | false => left; rw [timePollingStep_off_hours hours t db hin]
  | true =>
    cases hl : Last db t.now.hour t.now.Format t.lastErr with
    | none => left; rw [timePollingStep_lookup_ok hours t db hin hl]
    | some e =>
      have hs : (Last db t.now.hour t.now.Format t.lastErr).isSome = true := by simp [hl]
      rw [timePollingStep_lookup_err hours t db hin hs]
      rcases createRecord_cases t.world db [] with ⟨h1, h2⟩ | ⟨T, W, _, h2, _, h4⟩
      · left
        cases hx : (createRecord t.world db []).exit with
        | returned => exact absurd hx h2
        | nilDereference => simpa using h1
        | logPanic => simpa using h1
      · right
        refine ⟨rfl, T, W, ?_⟩
        rw [h2]
        exact h4

theorem createRecords_ids (ws : List World) (db dbs : List Measurement)
    (h : createRecords ws db = some dbs) :
    dbs.map (fun r => r.Id) =
      db.map (fun r => r.Id) ++
        (List.range ws.length).map (fun i : Nat => ((db.length + i : Nat) : Int) + 1) := by
  induction ws generalizing db with
  | nil =>
    simp only [createRecords, Option.some.injEq] at h
    subst h
    simp
  | cons w ws ih =>
    simp only [createRecords] at h
    rcases createRecord_cases w db [] with ⟨_, h2⟩ | ⟨T, W, _, h2, _, h4⟩
    · cases hx : (createRecord w db []).exit with
      | returned => exact absurd hx h2
      | nilDereference => rw [hx] at h; simp at h
      | logPanic => rw [hx] at h; simp at h
    · rw [h2] at h
      simp only at h
      rw [h4] at h
      rw [ih _ h]
      simp only [List.map_append, List.map_cons, List.map_nil, List.length_append,
        List.length_cons, List.length_nil, List.append_assoc, List.singleton_append,
        List.range_succ_eq_map, List.map_map]
      congr 2
      apply List.map_congr_left
      intro i _
      simp only [Function.comp]
      push_cast
      ring

theorem range_ids_increasing (n : Nat) :
    ((List.range n).map (fun i : Nat => ((0 + i : Nat) : Int) + 1)).Pairwise
      (fun a b => a < b) := by
  rw [List.pairwise_map]
  exact (List.pairwise_lt_range n).imp (fun h => by omega)

/-- C5 (the code violates the claim): with the target hours 10, 15, 20 an iteration reads
hour 10, fetches, and `createRecord` reads hour 11; a record whose `Hour` is 11,
outside the target set, is inserted. -/
theorem poller_inserts_outside_target_set :
    checkItemInArray 11 [10, 15, 20] = false ∧
      timePollingStep [10, 15, 20] hourTurns [] =
        ⟨[⟨1, 11, "2024-01-01", Flt.fin false 20 0, Flt.fin false 3 0⟩],
          [Event.httpGet, Event.sleep], Exit.returned⟩ := by
  decide

/-- C7 (amended): a request whose hour parses and whose query fails or matches no record
gets status 400 and exactly the error object as body; a request whose hour does not parse
gets status 400 and a body that begins with the text `Error`. -/
theorem backend_bad_request (sHour : String) (findErr : Option String)
    (db : List Measurement) :
    ((Backend.ParseInt sHour).2 = none →
      (findErr.isSome = true ∨ Find db (Backend.ParseInt sHour).1 = []) →
        Backend.handleAverage sHour findErr db = ⟨true, 400, Backend.errorObject⟩) ∧
    ((Backend.ParseInt sHour).2 ≠ none →
      (Backend.handleAverage sHour findErr db).status = 400 ∧
        ∃ rest, (Backend.handleAverage sHour findErr db).body = "Error" ++ rest) := by
  constructor
  · intro hp hq
    have hcond : findErr.isSome = true ∨ (if findErr.isSome = true then []
        else Find db (Backend.ParseInt sHour).1).length = 0 := by
      rcases hq with hq | hq
      · exact Or.inl hq
      · right
        split
        · rfl
        · rw [hq]; rfl
    simp only [Backend.handleAverage, hp, Option.isSome_none, Bool.false_eq_true, if_false]
    rw [if_pos hcond]
    rfl
  · intro hp
    have hs : (Backend.ParseInt sHour).2.isSome = true := by
      cases h : (Backend.ParseInt sHour).2 with
      | none => exact absurd h hp
      | some e => rfl
    simp only [Backend.handleAverage, hs, if_true]
    generalize (if findErr.isSome = true then ([] : List Measurement)
      else Find db (Backend.ParseInt sHour).1) = m
    by_cases hc : findErr.isSome = true ∨ m.length = 0
    · rw [if_pos hc]
      exact ⟨rfl, Backend.errorObject, by decide⟩
    · rw [if_neg hc]
      exact ⟨rfl, "", by decide⟩

/-- Witness for C7: hour 10 on an empty store, and an hour beyond the 32-bit range. -/
theorem backend_empty_store_and_overflow :
    Backend.handleAverage "10" none [] = ⟨true, 400, Backend.errorObject⟩ ∧
      ((Backend.handleAverage "99999999999" none []).status = 400 ∧
        ∃ rest, (Backend.handleAverage "99999999999" none []).body = "Error" ++ rest) :=
  ⟨(backend_bad_request "10" none []).1 (by decide) (by decide),
   (backend_bad_request "99999999999" none []).2 (by decide)⟩

/-- Counterexample to C7 as stated: the hour `99999999999` does not parse as a 32-bit
integer, and the body is the text `Error` followed by the error object. -/
theorem backend_overflow_body_has_text :
    (Backend.ParseInt "99999999999").2 = some Backend.NumError.ErrRange ∧
      Backend.handleAverage "99999999999" none []
        = ⟨true, 400, "Error" ++ Backend.errorObject⟩ ∧
      (Backend.handleAverage "99999999999" none []).body ≠ Backend.errorObject := by
  decide

/-! ## Poller: failure paths, uniqueness, ids -/

/-- C8 (the code violates the claim): when the provider answers with status 500 and no
transport error, `logProblemToDS(nil)` panics on `err.Error()`; the process ends after the
fetch without any POST to the webhook, the store unchanged. -/
theorem non200_sends_no_alert :
    createRecord serverError twoReadings [] =
      ⟨twoReadings, [Event.httpGet], Exit.nilDereference⟩ ∧
    (∀ body, Event.httpPost body ∉ (createRecord serverError twoReadings []).trace) := by
  constructor
  · decide
  · intro body
    have h : (createRecord serverError twoReadings []).trace = [Event.httpGet] := by decide
    rw [h]
    simp

/-- Appending a row whose (hour, date) pair is not in the store keeps the pairs unique. -/
theorem uniquePairs_append (db : List Measurement) (row : Measurement)
    (huniq : uniquePairs db)
    (hnew : ∀ a ∈ db, ¬ (a.Hour = row.Hour ∧ a.Date = row.Date)) :
    uniquePairs (db ++ [row]) := by
  unfold uniquePairs at huniq ⊢
  rw [List.pairwise_append]
  refine ⟨huniq, List.pairwise_singleton _ _, ?_⟩
  intro a ha b hb
  simp only [List.mem_singleton] at hb
  subst hb
  exact hnew a ha

/-- With a healthy lookup and agreeing clock readings an iteration keeps the pairs
unique. -/
theorem timePollingStep_unique_healthy (hours : List Int) (t : Tick) (db : List Measurement)
    (huniq : uniquePairs db) (hf : t.lastErr = none)
    (hsame : t.world.now.hour = t.now.hour ∧ t.world.now.Format = t.now.Format) :
    uniquePairs (timePollingStep hours t db).db := by
  rcases timePollingStep_db hours t db with h | ⟨hl, T, W, h⟩
  · rw [h]
    exact huniq
  · rw [h]
    rw [hf] at hl
    have hno := (Last_isSome_iff db _ _).1 hl
    apply uniquePairs_append db _ huniq
    intro a ha hab
    simp only [hsame.1, hsame.2] at hab
    exact hno ⟨a, ha, hab.1, hab.2⟩

/-- Over any number of iterations with a healthy lookup and agreeing clock readings the
loop keeps "at most one row per (hour, date)". -/
theorem timePolling_unique (hours : List Int) (ts : List Tick) (r : Run)
    (huniq : uniquePairs r.db)
    (hticks : ∀ t ∈ ts, t.lastErr = none ∧
      t.world.now.hour = t.now.hour ∧ t.world.now.Format = t.now.Format) :
    uniquePairs (timePolling hours ts r).db := by
  induction ts generalizing r with
  | nil => exact huniq
  | cons t ts ih =>
    simp only [timePolling]
    obtain ⟨hf, hsame⟩ := hticks t (List.mem_cons_self _ _)
    have hrest : ∀ u ∈ ts, u.lastErr = none ∧
        u.world.now.hour = u.now.hour ∧ u.world.now.Format = u.now.Format :=
      fun u hu => hticks u (List.mem_cons_of_mem _ hu)
    cases hx : r.exit with
    | returned =>
      simp only
      exact ih _ (timePollingStep_unique_healthy hours t r.db huniq hf hsame) hrest
    | nilDereference => exact huniq
    | logPanic => exact huniq

/-- When the pair `createRecord` writes, taken from its own clock reading, happens to be the
pair that was looked up, and the lookup fails exactly if no matching row exists, an
iteration keeps "at most one row per (hour, date)".  The code does not ensure the first
condition. -/
theorem poller_preserves_unique_pairs (hours : List Int) (t : Tick) (db : List Measurement)
    (huniq : uniquePairs db)
    (hlookup : (Last db t.now.hour t.now.Format t.lastErr).isSome = true ↔
      ¬ ∃ r ∈ db, r.Hour = t.now.hour ∧ r.Date = t.now.Format)
    (hsame : t.world.now.hour = t.now.hour ∧ t.world.now.Format = t.now.Format) :
    uniquePairs (timePollingStep hours t db).db := by
  rcases timePollingStep_db hours t db with h | ⟨hl, T, W, h⟩
  · rw [h]
    exact huniq
  · rw [h]
    have hno := hlookup.1 hl
    apply uniquePairs_append db _ huniq
    intro a ha hab
    simp only [hsame.1, hsame.2] at hab
    exact hno ⟨a, ha, hab.1, hab.2⟩

/-- On the third day at hour 10, both clock readings in the same hour, the pairs stay
unique. -/
theorem third_day_stays_unique :
    uniquePairs (timePollingStep [10, 15, 20] thirdDay twoReadings).db :=
  poller_preserves_unique_pairs [10, 15, 20] thirdDay twoReadings (by decide) (by decide)
    (by decide)

/-- Every failure that carries a non-nil error (transport failure, unreadable body,
undecodable body) sends the alert after the fetch and ends the process, the store as it
was. -/
theorem createRecord_failure_alerts (w : World) (db : List Measurement) (err : String)
    (h : w.get = GetResult.failed err ∨ w.get = GetResult.response 200 (Body.readError err) ∨
      w.get = GetResult.response 200 (Body.decodeError err)) :
    (createRecord w db []).trace = [Event.httpGet, Event.httpPost (alertBody err)] ∧
      (createRecord w db []).db = db ∧ (createRecord w db []).exit ≠ Exit.returned := by
  rcases h with h | h | h <;>
    simp [createRecord, h, alertAndPanic_posts, alertAndPanic_db, alertAndPanic_exit]

/-- A failing insert sends the alert after the fetch and ends the process, the store as it
was. -/
theorem createRecord_write_failure_alerts (w : World) (db : List Measurement)
    (T W : float32) (err : String) (hg : w.get = GetResult.response 200 (Body.weather T W))
    (hc : w.createErr = some err) :
    (createRecord w db []).trace = [Event.httpGet, Event.httpPost (alertBody err)] ∧
      (createRecord w db []).db = db ∧ (createRecord w db []).exit ≠ Exit.returned := by
  simp [createRecord, hg, hc, Create, alertAndPanic_posts, alertAndPanic_db,
    alertAndPanic_exit]

/-- C9 (the code violates the claim): the store holds one row per (hour, date), the hour
read by the loop is a target hour, and the lookup fails exactly because no row matches
(hour 10, 2024-01-01); `createRecord` then reads hour 11 after the fetch and appends a
second row for (hour 11, 2024-01-01): the invariant is broken. -/
theorem unique_pairs_broken_when_hour_turns :
    uniquePairs elevenOclock ∧
      checkItemInArray hourTurns.now.hour [10, 15, 20] = true ∧
      ((Last elevenOclock hourTurns.now.hour hourTurns.now.Format hourTurns.lastErr).isSome
          = true ↔
        ¬ ∃ r ∈ elevenOclock, r.Hour = hourTurns.now.hour ∧ r.Date = hourTurns.now.Format) ∧
      timePollingStep [10, 15, 20] hourTurns elevenOclock =
        ⟨[⟨1, 11, "2024-01-01", Flt.fin false 19 0, Flt.fin false 2 0⟩,
          ⟨2, 11, "2024-01-01", Flt.fin false 20 0, Flt.fin false 3 0⟩],
          [Event.httpGet, Event.sleep], Exit.returned⟩ ∧
      ¬ uniquePairs (timePollingStep [10, 15, 20] hourTurns elevenOclock).db := by
  decide

/-- C10: a call of `createRecord` that returns has appended exactly one row, with id
(rows before) + 1, the hour of its clock reading, the date of that reading written
`YYYY-MM-DD` (the reading being a calendar date with a four-digit year) and the fetched
values, leaving the existing rows as they were; over successive returning calls from the
empty store the ids are 1, 2, 3, ... in order, strictly increasing. -/
theorem createRecord_appends_next_id (w : World) (db : List Measurement)
    (trace : List Event) (ws : List World) (dbs : List Measurement)
    (hret : (createRecord w db trace).exit = Exit.returned)
    (hy : 0 ≤ w.now.year ∧ w.now.year ≤ 9999)
    (hm : 1 ≤ w.now.month ∧ w.now.month ≤ 12) (hd : 1 ≤ w.now.day ∧ w.now.day ≤ 31)
    (hseq : createRecords ws [] = some dbs) :
    (∃ T W, w.get = GetResult.response 200 (Body.weather T W) ∧
      (createRecord w db trace).db =
        db ++ [⟨(db.length : Int) + 1, w.now.hour,
          dateYMD w.now.year.toNat w.now.month w.now.day, T, W⟩]) ∧
    (dbs.map (fun r => r.Id) = (List.range ws.length).map (fun i : Nat => (i : Int) + 1) ∧
      (dbs.map (fun r => r.Id)).Pairwise (fun a b => a < b)) := by
  constructor
  · rcases createRecord_cases w db trace with ⟨_, h2⟩ | ⟨T, W, h1, _, _, h4⟩
    · exact absurd hret h2
    · refine ⟨T, W, h1, ?_⟩
      rw [h4, Format_eq_dateYMD w.now hy hm.2 hd.2]
  · have h := createRecords_ids ws [] dbs hseq
    have hinc := range_ids_increasing ws.length
    simp only [List.map_nil, List.nil_append, List.length_nil, Nat.zero_add] at h hinc
    rw [h]
    exact ⟨rfl, hinc⟩

/-- Witness for C10: on 2024-01-03 at hour 10 the third row gets id 3 and the date
`2024-01-03`; two successive inserts into the empty store get the ids 1 and 2. -/
theorem two_inserts_get_ids_1_2 :
    (createRecord thirdDay.world twoReadings []).db =
        twoReadings ++ [⟨3, 10, "2024-01-03", Flt.fin false 21 0, Flt.fin false 4 0⟩] ∧
    dateYMD 2024 1 3 = "2024-01-03" ∧
    createRecords [hourTurns.world, thirdDay.world] [] =
        some [⟨1, 11, "2024-01-01", Flt.fin false 20 0, Flt.fin false 3 0⟩,
          ⟨2, 10, "2024-01-03", Flt.fin false 21 0, Flt.fin false 4 0⟩] ∧
    (∃ T W, thirdDay.world.get = GetResult.response 200 (Body.weather T W) ∧
      (createRecord thirdDay.world twoReadings []).db =
        twoReadings ++ [⟨((twoReadings.length : Nat) : Int) + 1, thirdDay.world.now.hour,
          dateYMD thirdDay.world.now.year.toNat thirdDay.world.now.month
            thirdDay.world.now.day, T, W⟩]) ∧
    (([⟨1, 11, "2024-01-01", Flt.fin false 20 0, Flt.fin false 3 0⟩,
        ⟨2, 10, "2024-01-03", Flt.fin false 21 0, Flt.fin false 4 0⟩] :
          List Measurement).map (fun r => r.Id)
        = (List.range [hourTurns.world, thirdDay.world].length).map
            (fun i : Nat => (i : Int) + 1) ∧
      (([⟨1, 11, "2024-01-01", Flt.fin false 20 0, Flt.fin false 3 0⟩,
        ⟨2, 10, "2024-01-03", Flt.fin false 21 0, Flt.fin false 4 0⟩] :
          List Measurement).map (fun r => r.Id)).Pairwise (fun a b => a < b)) :=
  ⟨by decide, by decide, by decide,
    createRecord_appends_next_id thirdDay.world twoReadings []
      [hourTurns.world, thirdDay.world] _ (by decide) (by decide) (by decide) (by decide)
      (by decide)⟩

end Weather
